import Mathlib

/-!
Book inventory front end (`src/App.js`).

A shallow embedding of the logic of the `App` component: the derived values
computed in its body (statistics, genre list, `filteredBooks`) and its event
handlers (`loadBooks`, `handleSubmit`, `handleEdit`, `handleDelete`,
`handleReset`), followed by theorems about them.

Modelling conventions.

* A JavaScript string is a `String`; a JSON integer is an `Int`; a property
  that is `undefined` or `null` is `none`.
* A number computed by the component (a sum, a `Number(text)`) is a
  `JsNumber`: the exact result rounded to a double, kept when it is an
  integer.
* `Array.prototype.sort` is the stable sort that ECMAScript prescribes; for a
  consistent comparator its result does not depend on the sorting algorithm.
* The two string primitives whose result depends on Unicode tables held by
  the runtime, `toLowerCase` and `localeCompare`, are fields of a `JsText`
  record that every definition using them takes as an argument.
* An `async` handler takes the outcome of each request it awaits as an
  argument and returns the state after its last state update, together with
  the requests it issued.
-/

namespace BookInventory

/-! ## Runtime primitives -/

/-- The string primitives that depend on data held by the JavaScript runtime. -/
structure JsText where
  /-- `String.prototype.toLowerCase`. -/
  toLowerCase : String → String
  /-- `String.prototype.localeCompare`: negative, zero or positive. -/
  localeCompare : String → String → Int

/-- A runtime is consistent when lower-casing the empty string gives the empty
string and `localeCompare` is a consistent comparator in the sense of
ECMAScript: its sign flips when the arguments are swapped, and "not after" is
transitive. -/
structure JsText.Consistent (L : JsText) : Prop where
  lower_empty : L.toLowerCase "" = ""
  flip : ∀ a b, 0 < L.localeCompare a b ↔ L.localeCompare b a < 0
  trans : ∀ a b c, L.localeCompare a b ≤ 0 → L.localeCompare b c ≤ 0 →
    L.localeCompare a c ≤ 0

/-- A concrete runtime: ASCII lower-casing and comparison by code points. -/
def codePointText : JsText where
  toLowerCase := fun s => String.mk (s.data.map Char.toLower)
  localeCompare := fun a b => if a < b then -1 else if a = b then 0 else 1

/-- The code points that `String.prototype.trim` strips: the ECMAScript
`WhiteSpace` and `LineTerminator` productions. -/
def isWhiteSpace (c : Char) : Bool :=
  let n := c.toNat
  (decide (9 ≤ n) && decide (n ≤ 13)) || n == 32 || n == 160 || n == 5760 ||
    (decide (8192 ≤ n) && decide (n ≤ 8202)) || n == 8232 || n == 8233 ||
    n == 8239 || n == 8287 || n == 12288 || n == 65279

/-- `String.prototype.trim`. -/
def trim (s : String) : String :=
  String.mk ((s.data.dropWhile isWhiteSpace).reverse.dropWhile isWhiteSpace).reverse

/-- `String.prototype.includes`: `t` occurs in `s` as a contiguous run. -/
def includes (s t : String) : Bool :=
  decide (t.data <:+: s.data)

/-- `x || d` for a string-valued property: `d` replaces a missing or empty `x`. -/
def strOr : Option String → String → String
  | some s, d => if s = "" then d else s
  | none, d => d

/-- `x || d` for a number-valued property: `d` replaces a missing or zero `x`. -/
def numOr : Option Int → Int → Int
  | some n, d => if n = 0 then d else n
  | none, d => d

/-- A JavaScript number, as far as the component needs it: an integer-valued
finite double is `int n` (the two zeros are one value); every other number
(`NaN`, an infinity, a finite number with a fractional part) is `other`. -/
inductive JsNumber where
  | int (n : Int)
  | other
  deriving DecidableEq, Repr

/-- Unary minus. -/
def JsNumber.neg : JsNumber → JsNumber
  | .int n => .int (-n)
  | .other => .other

/-- The position of the leading binary digit of `n`: the largest `k` with
`2 ^ k ≤ n`, and `0` for `n = 0`. -/
def log2Floor (n : Nat) : Nat :=
  go n n
where
  /-- Halve `n` until it is below 2, at most `fuel` times. -/
  go : Nat → Nat → Nat
    | 0, _ => 0
    | fuel + 1, n => if n < 2 then 0 else go fuel (n / 2) + 1

/-- The integer nearest to `num / den`, a tie going to the even one. -/
def roundHalfEven (num den : Nat) : Nat :=
  let q := num / den
  let r := num % den
  if den < 2 * r ∨ (2 * r = den ∧ q % 2 = 1) then q + 1 else q

/-- The double nearest to the natural number `a` (IEEE 754 round to nearest,
ties to even): `a` itself below `2 ^ 53`, otherwise `a` rounded to 53
significant binary digits, and an infinity from `2 ^ 1024` on. -/
def roundNat (a : Nat) : JsNumber :=
  if a < 2 ^ 53 then .int a
  else
    let shift := log2Floor a - 52
    let v := roundHalfEven a (2 ^ shift) * 2 ^ shift
    if log2Floor v < 1024 then .int v else .other

/-- The double nearest to the integer `n`. -/
def roundInt (n : Int) : JsNumber :=
  if n < 0 then (roundNat n.natAbs).neg else roundNat n.natAbs

/-- The double nearest to the ratio `a / b` of two natural numbers, `b` not
zero: the ratio is rounded to a multiple of its unit in the last place
`2 ^ u`, where `u` is 52 below its binary exponent and at least `-1074`. -/
def roundRatio (a b : Nat) : JsNumber :=
  if a = 0 then .int 0
  else
    let l : Int := (log2Floor a : Int) - (log2Floor b : Int)
    let p : Int :=
      if (if 0 ≤ l then b * 2 ^ l.toNat ≤ a else b ≤ a * 2 ^ (-l).toNat) then l else l - 1
    let u : Int := max p (-1022) - 52
    if 0 ≤ u then
      let v := roundHalfEven a (b * 2 ^ u.toNat) * 2 ^ u.toNat
      if log2Floor v < 1024 then .int v else .other
    else
      let n := roundHalfEven (a * 2 ^ (-u).toNat) b
      if n % 2 ^ (-u).toNat = 0 then .int (n / 2 ^ (-u).toNat) else .other

/-- The double nearest to `m * 10 ^ e`. -/
def roundDecimal (m : Nat) (e : Int) : JsNumber :=
  if 0 ≤ e then roundNat (m * 10 ^ e.toNat) else roundRatio m (10 ^ (-e).toNat)

/-- `x + y` for a number `x` and an integer-valued `y`: the exact sum rounded
to a double. An `x` that is not an integer is an infinity wherever this is
used, and stays one. -/
def JsNumber.add : JsNumber → Int → JsNumber
  | .int a, b => roundInt (a + b)
  | .other, _ => .other

/-- The number written by a run of decimal digits. -/
def digitsValue (ds : List Char) : Nat :=
  ds.foldl (fun acc c => 10 * acc + (c.toNat - 48)) 0

/-- The value of the character `c` as a digit in base `radix`, if it is one. -/
def radixDigit (radix : Nat) (c : Char) : Option Nat :=
  let n := c.toNat
  let d :=
    if 48 ≤ n ∧ n ≤ 57 then some (n - 48)
    else if 97 ≤ n ∧ n ≤ 102 then some (n - 87)
    else if 65 ≤ n ∧ n ≤ 70 then some (n - 55)
    else none
  d.bind (fun v => if v < radix then some v else none)

/-- The number written by a non-empty run of digits in base `radix`. -/
def radixValue (radix : Nat) (ds : List Char) : Option Nat :=
  if ds = [] then none
  else
    ds.foldl
      (fun acc c => acc.bind (fun v => (radixDigit radix c).map (fun d => radix * v + d)))
      (some 0)

/-- The value of a `NonDecimalIntegerLiteral`: `0x`, `0o` or `0b` and digits. -/
def nonDecimalLiteral : List Char → Option Nat
  | '0' :: c :: ds =>
    if c = 'x' ∨ c = 'X' then radixValue 16 ds
    else if c = 'o' ∨ c = 'O' then radixValue 8 ds
    else if c = 'b' ∨ c = 'B' then radixValue 2 ds
    else none
  | _ => none

/-- The value of a `SignedInteger`: decimal digits after an optional sign. -/
def signedInteger : List Char → Option Int
  | '-' :: ds => if ds ≠ [] ∧ ds.all Char.isDigit then some (-(digitsValue ds : Int)) else none
  | '+' :: ds => if ds ≠ [] ∧ ds.all Char.isDigit then some (digitsValue ds : Int) else none
  | ds => if ds ≠ [] ∧ ds.all Char.isDigit then some (digitsValue ds : Int) else none

/-- The value of an optional `ExponentPart`: nothing, or `e` or `E` and a
signed integer. -/
def exponentPart : List Char → Option Int
  | [] => some 0
  | c :: ds => if c = 'e' ∨ c = 'E' then signedInteger ds else none

/-- The value of a `StrUnsignedDecimalLiteral`: `Infinity`, or decimal digits
with an optional fraction and an optional exponent, at least one digit before
or after the point. A text of another form is `NaN`. -/
def unsignedDecimalLiteral (cs : List Char) : JsNumber :=
  if cs = "Infinity".data then .other
  else
    let intDigits := cs.takeWhile Char.isDigit
    let rest := cs.dropWhile Char.isDigit
    let fracDigits :=
      match rest with
      | '.' :: r => r.takeWhile Char.isDigit
      | _ => []
    let rest :=
      match rest with
      | '.' :: r => r.dropWhile Char.isDigit
      | r => r
    if intDigits = [] ∧ fracDigits = [] then .other
    else
      match exponentPart rest with
      | none => .other
      | some e => roundDecimal (digitsValue (intDigits ++ fracDigits)) (e - fracDigits.length)

/-- `Number(s)` for a string `s` (ECMAScript `StringToNumber`): surrounding
white space is dropped, the empty text is `0`, a signed decimal literal or an
unsigned literal with a radix prefix is its value rounded to a double, and any
other text is `NaN`. The value of a literal is taken exactly before rounding,
also beyond 20 significant digits, as engines do. -/
def stringToNumber (s : String) : JsNumber :=
  match (trim s).data with
  | [] => .int 0
  | '-' :: cs => (unsignedDecimalLiteral cs).neg
  | '+' :: cs => unsignedDecimalLiteral cs
  | cs =>
    match nonDecimalLiteral cs with
    | some n => roundNat n
    | none => unsignedDecimalLiteral cs

/-- `Array.prototype.sort(compareFn)`: a stable sort that places `a` before `b`
when `compareFn(a, b) <= 0`. -/
def arraySort {α : Type} (compareFn : α → α → Int) (xs : List α) : List α :=
  xs.insertionSort (fun a b => compareFn a b ≤ 0)

/-! ## Data model -/

/-- A book record as received from the catalog service. -/
structure Book where
  id : Option Nat
  title : Option String
  author : Option String
  isbn : Option String
  publishedYear : Option Int
  genre : Option String
  quantity : Option Int
  deriving DecidableEq, Repr

/-! ## Derived values of the component body -/

/-- `totalTitles` (line 28). -/
def totalTitles (books : List Book) : Nat :=
  books.length

/-- `totalCopies` (lines 29-32). -/
def totalCopies (books : List Book) : JsNumber :=
  books.foldl (fun sum book => sum.add (numOr book.quantity 0)) (.int 0)

/-- `Set.prototype.add` on a set kept in insertion order. -/
def setAdd (unique : List String) (g : String) : List String :=
  if g ∈ unique then unique else unique ++ [g]

/-- The `unique` set built by the `forEach` of lines 34-39. -/
def uniqueGenres (books : List Book) : List String :=
  books.foldl
    (fun unique book =>
      match book.genre with
      | some g => if g ≠ "" then setAdd unique g else unique
      | none => unique)
    []

/-- `genres` (lines 33-41). -/
def genres (L : JsText) (books : List Book) : List String :=
  arraySort (fun a b => L.localeCompare a b) (uniqueGenres books)

/-- `totalGenres` (line 42). -/
def totalGenres (L : JsText) (books : List Book) : Nat :=
  (genres L books).length

/-- `lowStockCount` (lines 43-46). -/
def lowStockCount (books : List Book) : Nat :=
  (books.filter (fun book => decide (numOr book.quantity 0 ≤ 2))).length

/-- The predicate of the search filter (lines 52-63). -/
def matchesTerm (L : JsText) (term : String) (book : Book) : Bool :=
  let title := strOr (book.title.map L.toLowerCase) ""
  let author := strOr (book.author.map L.toLowerCase) ""
  let isbn := strOr (book.isbn.map L.toLowerCase) ""
  let genre := strOr (book.genre.map L.toLowerCase) ""
  includes title term || includes author term || includes isbn term || includes genre term

/-- The comparator handed to `sorted.sort` (lines 71-82). -/
def compareBooks (L : JsText) (sortBy : String) (a b : Book) : Int :=
  if sortBy = "author" then
    L.localeCompare (strOr a.author "") (strOr b.author "")
  else if sortBy = "year" then
    numOr b.publishedYear 0 - numOr a.publishedYear 0
  else if sortBy = "copies" then
    numOr b.quantity 0 - numOr a.quantity 0
  else
    L.localeCompare (strOr a.title "") (strOr b.title "")

/-- `filteredBooks` (lines 47-85). -/
def filteredBooks (L : JsText) (books : List Book)
    (searchTerm genreFilter sortBy : String) : List Book :=
  let term := L.toLowerCase (trim searchTerm)
  let result := books
  let result := if term ≠ "" then result.filter (matchesTerm L term) else result
  let result :=
    if genreFilter ≠ "all" then
      result.filter (fun book => decide (book.genre = some genreFilter))
    else result
  arraySort (compareBooks L sortBy) result

/-- `activeFilters` (lines 87-88). -/
def activeFilters (searchTerm genreFilter sortBy : String) : Nat :=
  (if trim searchTerm ≠ "" then 1 else 0) + (if genreFilter ≠ "all" then 1 else 0) +
    (if sortBy ≠ "" then 1 else 0)

/-! ## Component state and requests -/

/-- The value of a form field bound to a numeric input: the text typed by the
user, or the number copied from a record by `handleEdit`. -/
inductive FieldValue where
  | text (s : String)
  | number (n : Int)
  deriving DecidableEq, Repr

/-- The `form` state (shape of `emptyForm`, lines 6-14). -/
structure Form where
  id : Option Nat
  title : String
  author : String
  isbn : String
  publishedYear : FieldValue
  genre : String
  quantity : FieldValue
  deriving DecidableEq, Repr

/-- `emptyForm` (lines 6-14). -/
def emptyForm : Form :=
  { id := none, title := "", author := "", isbn := "", publishedYear := .text "",
    genre := "", quantity := .text "1" }

/-- `Number(v)` for a form field. -/
def FieldValue.toNumber : FieldValue → JsNumber
  | .text s => stringToNumber s
  | .number n => .int n

/-- Truthiness of a form field: a non-empty text or a non-zero number. -/
def FieldValue.truthy : FieldValue → Bool
  | .text s => decide (s ≠ "")
  | .number n => decide (n ≠ 0)

/-- The `payload` object of `handleSubmit` (lines 126-133); `none` is `null`. -/
structure Payload where
  title : String
  author : String
  isbn : String
  publishedYear : Option JsNumber
  genre : String
  quantity : JsNumber
  deriving DecidableEq, Repr

/-- A request handed to `fetch`. -/
inductive Request where
  | get
  | post (body : Payload)
  | put (id : Option Nat) (body : Payload)
  | delete (id : Option Nat)
  deriving DecidableEq, Repr

/-- What awaiting `fetch(...)` gave: an exception carrying a message, or a
response with its `ok` flag. -/
inductive FetchOutcome where
  | threw (message : String)
  | response (ok : Bool)
  deriving DecidableEq, Repr

/-- What awaiting `response.json()` gave. -/
inductive JsonOutcome where
  | threw (message : String)
  | data (books : List Book)
  deriving DecidableEq, Repr

/-- The state held by the `useState` hooks of `App` (lines 17-25). -/
structure AppState where
  books : List Book
  form : Form
  isEditing : Bool
  loading : Bool
  error : String
  searchTerm : String
  genreFilter : String
  sortBy : String
  activePage : String
  deriving DecidableEq, Repr

/-- The state at mount. -/
def initialState : AppState :=
  { books := [], form := emptyForm, isEditing := false, loading := false, error := "",
    searchTerm := "", genreFilter := "all", sortBy := "title", activePage := "overview" }

/-- The message stored by a `catch` block: `err.message || 'Something went wrong.'`. -/
def errorMessage (message : String) : String :=
  strOr (some message) "Something went wrong."

/-! ## Event handlers -/

/-- `loadBooks` (lines 100-115). -/
def loadBooks (st : AppState) (list : FetchOutcome) (json : JsonOutcome) :
    AppState × List Request :=
  let st := { st with loading := true }
  let st := { st with error := "" }
  let st :=
    match list with
    | .threw message => { st with error := errorMessage message }
    | .response false => { st with error := errorMessage "Failed to load books." }
    | .response true =>
      match json with
      | .threw message => { st with error := errorMessage message }
      | .data books => { st with books := books }
  ({ st with loading := false }, [Request.get])

/-- `handleChange` (lines 117-120) for the named inputs of the form. -/
def handleChange (st : AppState) (name value : String) : AppState :=
  let prev := st.form
  let next :=
    if name = "title" then { prev with title := value }
    else if name = "author" then { prev with author := value }
    else if name = "isbn" then { prev with isbn := value }
    else if name = "publishedYear" then { prev with publishedYear := .text value }
    else if name = "genre" then { prev with genre := value }
    else if name = "quantity" then { prev with quantity := .text value }
    else prev
  { st with form := next }

/-- `handleReset` (lines 196-202). -/
def handleReset (st : AppState) : AppState :=
  let st := { st with form := emptyForm }
  { st with isEditing := false }

/-- The `payload` built by `handleSubmit` (lines 126-133). -/
def buildPayload (form : Form) : Payload :=
  { title := trim form.title
    author := trim form.author
    isbn := trim form.isbn
    publishedYear := if form.publishedYear.truthy then some form.publishedYear.toNumber else none
    genre := trim form.genre
    quantity := if form.quantity.truthy then form.quantity.toNumber else .int 0 }

/-- `handleSubmit` (lines 122-159). -/
def handleSubmit (st : AppState) (save list : FetchOutcome) (json : JsonOutcome) :
    AppState × List Request :=
  let form := st.form
  let isEditing := st.isEditing
  let st := { st with error := "" }
  let payload := buildPayload form
  if payload.title = "" ∨ payload.author = "" then
    ({ st with error := "Title and author are required." }, [])
  else
    let request := if isEditing then Request.put form.id payload else Request.post payload
    match save with
    | .threw message => ({ st with error := errorMessage message }, [request])
    | .response false => ({ st with error := errorMessage "Unable to save the book." }, [request])
    | .response true =>
      let loaded := loadBooks st list json
      (handleReset loaded.1, request :: loaded.2)

/-- `handleEdit` (lines 161-177). -/
def handleEdit (st : AppState) (book : Book) : AppState :=
  let st :=
    { st with
      form :=
        { id := book.id
          title := strOr book.title ""
          author := strOr book.author ""
          isbn := strOr book.isbn ""
          publishedYear :=
            match book.publishedYear with
            | some n => .number n
            | none => .text ""
          genre := strOr book.genre ""
          quantity :=
            match book.quantity with
            | some n => .number n
            | none => .text "1" } }
  let st := { st with isEditing := true }
  { st with activePage := "manage" }

/-- `handleDelete` (lines 179-194); `confirmed` is the answer of `window.confirm`. -/
def handleDelete (st : AppState) (id : Option Nat) (confirmed : Bool)
    (remove list : FetchOutcome) (json : JsonOutcome) : AppState × List Request :=
  if !confirmed then (st, [])
  else
    match remove with
    | .threw message => ({ st with error := errorMessage message }, [Request.delete id])
    | .response false =>
      ({ st with error := errorMessage "Unable to delete the book." }, [Request.delete id])
    | .response true =>
      let loaded := loadBooks st list json
      (loaded.1, Request.delete id :: loaded.2)

/-- `handleResetFilters` (lines 204-208). -/
def handleResetFilters (st : AppState) : AppState :=
  let st := { st with searchTerm := "" }
  let st := { st with genreFilter := "all" }
  { st with sortBy := "title" }

/-- The values the component body derives from the state on a render (lines 28-88). -/
structure Derived where
  totalTitles : Nat
  totalCopies : JsNumber
  genres : List String
  totalGenres : Nat
  lowStockCount : Nat
  filteredBooks : List Book
  activeFilters : Nat
  deriving DecidableEq, Repr

/-- One evaluation of the component body on a state. -/
def derive (L : JsText) (st : AppState) : Derived :=
  { totalTitles := totalTitles st.books
    totalCopies := totalCopies st.books
    genres := genres L st.books
    totalGenres := totalGenres L st.books
    lowStockCount := lowStockCount st.books
    filteredBooks := filteredBooks L st.books st.searchTerm st.genreFilter st.sortBy
    activeFilters := activeFilters st.searchTerm st.genreFilter st.sortBy }

/-! ## The records of the specification's scenarios -/

/-- The record `Dune` of the scenarios. -/
def dune : Book :=
  { id := none, title := some "Dune", author := some "Herbert", isbn := none,
    publishedYear := none, genre := some "SciFi", quantity := some 1 }

/-- The record `Emma` of the scenarios. -/
def emma : Book :=
  { id := none, title := some "Emma", author := some "Austen", isbn := none,
    publishedYear := none, genre := some "Classic", quantity := some 5 }

/-! ## The specification's wording of the derivation -/

/-- The two filters as the specification words them: the trimmed search term
is empty or its lower-cased form occurs in the lower-cased title, author, isbn
or genre (a missing field counting as the empty string), and the genre filter
is `"all"` or equals the book's genre. -/
def passesFilters (L : JsText) (searchTerm genreFilter : String) (book : Book) : Bool :=
  let term := L.toLowerCase (trim searchTerm)
  (decide (trim searchTerm = "") ||
      includes (L.toLowerCase (book.title.getD "")) term ||
      includes (L.toLowerCase (book.author.getD "")) term ||
      includes (L.toLowerCase (book.isbn.getD "")) term ||
      includes (L.toLowerCase (book.genre.getD "")) term) &&
    (decide (genreFilter = "all") || decide (book.genre = some genreFilter))

/-- The genre values of a collection that are present and non-empty, with
repetitions: the values the specification counts the distinct ones of. -/
def nonEmptyGenres (books : List Book) : List String :=
  (books.filterMap (fun book => book.genre)).filter (fun g => decide (g ≠ ""))

/-- The JSON body a request carries, if it has one. -/
def Request.body : Request → Option Payload
  | .post body => some body
  | .put _ body => some body
  | .get => none
  | .delete _ => none

/-- The payload of the first request of a run: for `handleSubmit`, what the
save request sends to the repository. -/
def savedPayload (requests : List Request) : Option Payload :=
  requests.head?.bind Request.body

/-- A state whose draft has a title, an author and the quantity text `-5`. -/
def negativeQuantityState : AppState :=
  { initialState with
    form := { emptyForm with title := "Dune", author := "Herbert", quantity := .text "-5" } }

/-- A state whose draft has a title, an author and the quantity text `12`. -/
def digitQuantityState : AppState :=
  { initialState with
    form := { emptyForm with title := "Dune", author := "Herbert", quantity := .text "12" } }

/-- The state after choosing to edit `Dune` from the initial state. -/
def editingDuneState : AppState :=
  handleEdit initialState dune

/-- The record `Dune` without a quantity. -/
def duneWithoutQuantity : Book :=
  { dune with quantity := none }

/-- A string has no leading or trailing white space: neither its first nor its
last character is one that `trim` strips. -/
def noOuterWhiteSpace (s : String) : Bool :=
  s.data.head?.all (fun c => !isWhiteSpace c) && s.data.getLast?.all (fun c => !isWhiteSpace c)

/-- A record with every field present. -/
def duneComplete : Book :=
  { id := some 7, title := some "Dune", author := some "Frank Herbert",
    isbn := some "978-0441013593", publishedYear := some 1965, genre := some "SciFi",
    quantity := some 1 }

/-- A record whose quantity is `2 ^ 53`. -/
def warehouse : Book :=
  { id := none, title := some "Atlas", author := some "Mercator", isbn := none,
    publishedYear := none, genre := some "Maps", quantity := some 9007199254740992 }

/-- The initial state with the scenario collection loaded. -/
def scenarioState : AppState :=
  { initialState with books := [dune, emma] }

/-- A record with the same quantity as `Dune`. -/
def arrival : Book :=
  { id := none, title := some "Arrival", author := some "Chiang", isbn := none,
    publishedYear := none, genre := some "SciFi", quantity := some 1 }

/-! ## Basic facts about the primitives -/

theorem strOr_empty (o : Option String) : strOr o "" = o.getD "" := by
  cases o with
  | none => rfl
  | some s =>
    by_cases h : s = ""
    · simp [strOr, h]
    · simp [strOr, h]

theorem numOr_zero (o : Option Int) : numOr o 0 = o.getD 0 := by
  cases o with
  | none => rfl
  | some n =>
    by_cases h : n = 0
    · simp [numOr, h]
    · simp [numOr, h]

theorem includes_empty (s : String) : includes s "" = true := by
  simp [includes]

theorem errorMessage_ne_empty (message : String) : errorMessage message ≠ "" := by
  unfold errorMessage strOr
  by_cases h : message = ""
  · simp [h]
  · simp [h]

theorem arraySort_perm {α : Type} (compareFn : α → α → Int) (xs : List α) :
    (arraySort compareFn xs).Perm xs :=
  List.perm_insertionSort _ xs

theorem arraySort_length {α : Type} (compareFn : α → α → Int) (xs : List α) :
    (arraySort compareFn xs).length = xs.length :=
  List.length_insertionSort _ xs

theorem arraySort_sorted {α : Type} (compareFn : α → α → Int)
    (hflip : ∀ a b, 0 < compareFn a b ↔ compareFn b a < 0)
    (htrans : ∀ a b c, compareFn a b ≤ 0 → compareFn b c ≤ 0 → compareFn a c ≤ 0)
    (xs : List α) : (arraySort compareFn xs).Sorted (fun a b => compareFn a b ≤ 0) := by
  haveI : IsTotal α (fun a b => compareFn a b ≤ 0) :=
    ⟨fun a b => by
      by_cases h : compareFn a b ≤ 0
      · exact Or.inl h
      · exact Or.inr (le_of_lt ((hflip a b).1 (not_le.1 h)))⟩
  haveI : IsTrans α (fun a b => compareFn a b ≤ 0) := ⟨fun a b c => htrans a b c⟩
  exact List.sorted_insertionSort _ xs

theorem compareBooks_flip (L : JsText) (hL : L.Consistent) (sortBy : String) (a b : Book) :
    0 < compareBooks L sortBy a b ↔ compareBooks L sortBy b a < 0 := by
  unfold compareBooks
  split_ifs
  · exact hL.flip _ _
  · omega
  · omega
  · exact hL.flip _ _

theorem compareBooks_trans (L : JsText) (hL : L.Consistent) (sortBy : String) (a b c : Book) :
    compareBooks L sortBy a b ≤ 0 → compareBooks L sortBy b c ≤ 0 →
      compareBooks L sortBy a c ≤ 0 := by
  unfold compareBooks
  split_ifs
  · exact hL.trans _ _ _
  · omega
  · omega
  · exact hL.trans _ _ _

theorem filteredBooks_sorted_compare (L : JsText) (hL : L.Consistent) (books : List Book)
    (searchTerm genreFilter sortBy : String) :
    (filteredBooks L books searchTerm genreFilter sortBy).Sorted
      (fun a b => compareBooks L sortBy a b ≤ 0) :=
  arraySort_sorted _ (compareBooks_flip L hL sortBy) (compareBooks_trans L hL sortBy) _

theorem codePointText_consistent : codePointText.Consistent where
  lower_empty := rfl
  flip := by
    intro a b
    simp only [codePointText]
    rcases lt_trichotomy a b with h | h | h
    · have h1 : ¬ b < a := not_lt_of_gt h
      have h2 : b ≠ a := ne_of_gt h
      simp [h, h1, h2]
    · subst h
      simp
    · have h1 : ¬ a < b := not_lt_of_gt h
      have h2 : a ≠ b := ne_of_gt h
      simp [h, h1, h2]
  trans := by
    intro a b c
    simp only [codePointText]
    intro hab hbc
    have hab' : a ≤ b := by
      by_contra hn
      have h1 : ¬ a < b := fun h => hn (le_of_lt h)
      have h2 : a ≠ b := fun h => hn (le_of_eq h)
      simp [h1, h2] at hab
    have hbc' : b ≤ c := by
      by_contra hn
      have h1 : ¬ b < c := fun h => hn (le_of_lt h)
      have h2 : b ≠ c := fun h => hn (le_of_eq h)
      simp [h1, h2] at hbc
    rcases lt_or_eq_of_le (le_trans hab' hbc') with h | h
    · simp [h]
    · have h1 : ¬ a < c := by rw [h]; exact lt_irrefl c
      simp [h1, h]

theorem lowered_field (L : JsText) (hL : L.toLowerCase "" = "") (o : Option String) :
    strOr (o.map L.toLowerCase) "" = L.toLowerCase (o.getD "") := by
  cases o with
  | none => simpa [strOr] using hL.symm
  | some s => simpa using strOr_empty (some (L.toLowerCase s))

theorem matchesTerm_eq (L : JsText) (hL : L.toLowerCase "" = "") (term : String) (book : Book) :
    matchesTerm L term book =
      (includes (L.toLowerCase (book.title.getD "")) term ||
        includes (L.toLowerCase (book.author.getD "")) term ||
        includes (L.toLowerCase (book.isbn.getD "")) term ||
        includes (L.toLowerCase (book.genre.getD "")) term) := by
  simp only [matchesTerm, lowered_field L hL]

theorem filteredBooks_eq_sort_filter (L : JsText) (hL : L.toLowerCase "" = "")
    (books : List Book) (searchTerm genreFilter sortBy : String) :
    filteredBooks L books searchTerm genreFilter sortBy =
      arraySort (compareBooks L sortBy)
        (books.filter (passesFilters L searchTerm genreFilter)) := by
  unfold filteredBooks
  by_cases hterm : L.toLowerCase (trim searchTerm) = ""
  · by_cases hg : genreFilter = "all"
    · simp only [hterm, hg, ne_eq, not_true_eq_false, if_false]
      congr 1
      symm
      rw [List.filter_eq_self]
      intro b _
      simp [passesFilters, hterm, includes_empty]
    · simp only [hterm, hg, ne_eq, not_true_eq_false, not_false_eq_true, if_false, if_true]
      congr 1
      apply List.filter_congr
      intro b _
      simp [passesFilters, hterm, includes_empty, hg]
  · have htrim : trim searchTerm ≠ "" := by
      intro h
      apply hterm
      rw [h, hL]
    by_cases hg : genreFilter = "all"
    · simp only [hterm, hg, ne_eq, not_true_eq_false, not_false_eq_true, if_false, if_true]
      congr 1
      apply List.filter_congr
      intro b _
      simp [passesFilters, htrim, matchesTerm_eq L hL, Bool.or_assoc]
    · simp only [hterm, hg, ne_eq, not_false_eq_true, if_true, List.filter_filter]
      congr 1
      apply List.filter_congr
      intro b _
      simp [passesFilters, htrim, matchesTerm_eq L hL, hg, Bool.or_assoc, Bool.and_comm]

/-- Claim C1. For every collection and query, the list computed by
`filteredBooks` is a permutation of the books of the collection that pass the
two filters as the specification words them; a book is in it exactly when it is
in the collection and passes both filters, and no book occurs in it more often
than in the collection. -/
theorem filteredBooks_perm_passing (L : JsText) (hL : L.toLowerCase "" = "")
    (C : List Book) (searchTerm genreFilter sortKey : String) :
    (filteredBooks L C searchTerm genreFilter sortKey).Perm
        (C.filter (passesFilters L searchTerm genreFilter)) ∧
      (∀ b, b ∈ filteredBooks L C searchTerm genreFilter sortKey ↔
        b ∈ C ∧ passesFilters L searchTerm genreFilter b = true) ∧
      (∀ b, (filteredBooks L C searchTerm genreFilter sortKey).count b ≤ C.count b) := by
  have hperm : (filteredBooks L C searchTerm genreFilter sortKey).Perm
      (C.filter (passesFilters L searchTerm genreFilter)) := by
    rw [filteredBooks_eq_sort_filter L hL]
    exact arraySort_perm _ _
  refine ⟨hperm, ?_, ?_⟩
  · intro b
    rw [hperm.mem_iff, List.mem_filter]
  · intro b
    rw [hperm.count_eq]
    exact (List.filter_sublist C).count_le b

/-- Witness of C1 on the scenario collection with the search term `"aus"`. -/
theorem filteredBooks_perm_passing_witness :
    (filteredBooks codePointText [dune, emma] "aus" "all" "copies").Perm
        ([dune, emma].filter (passesFilters codePointText "aus" "all")) ∧
      (∀ b, b ∈ filteredBooks codePointText [dune, emma] "aus" "all" "copies" ↔
        b ∈ [dune, emma] ∧ passesFilters codePointText "aus" "all" b = true) ∧
      (∀ b, (filteredBooks codePointText [dune, emma] "aus" "all" "copies").count b ≤
        [dune, emma].count b) :=
  filteredBooks_perm_passing codePointText rfl [dune, emma] "aus" "all" "copies"

theorem filteredBooks_copies_scenario (L : JsText) (hL : L.Consistent) :
    filteredBooks L [dune, emma] "" "all" "copies" = [emma, dune] := by
  have ht : trim "" = "" := by decide
  simp only [filteredBooks, ht, hL.lower_empty, ne_eq, not_true_eq_false, if_false]
  simp [arraySort, compareBooks, numOr, dune, emma, List.insertionSort, List.orderedInsert]

/-- Claim C2. For every collection and query the list computed by
`filteredBooks` is sorted by the sort key: each pair of adjacent books is in
ascending `localeCompare` order of title (key `"title"`) or author (key
`"author"`), a missing field counting as the empty string, or in descending
order of publishedYear (key `"year"`) or quantity (key `"copies"`), a missing
value counting as 0; and `[Dune(1), Emma(5)]` sorted by `"copies"` is
`[Emma, Dune]`. -/
theorem filteredBooks_sorted_by_key (L : JsText) (hL : L.Consistent)
    (C : List Book) (searchTerm genreFilter : String) :
    (filteredBooks L C searchTerm genreFilter "title").Chain'
        (fun x y => L.localeCompare (x.title.getD "") (y.title.getD "") ≤ 0) ∧
      (filteredBooks L C searchTerm genreFilter "author").Chain'
        (fun x y => L.localeCompare (x.author.getD "") (y.author.getD "") ≤ 0) ∧
      (filteredBooks L C searchTerm genreFilter "year").Chain'
        (fun x y => x.publishedYear.getD 0 ≥ y.publishedYear.getD 0) ∧
      (filteredBooks L C searchTerm genreFilter "copies").Chain'
        (fun x y => x.quantity.getD 0 ≥ y.quantity.getD 0) ∧
      filteredBooks L [dune, emma] "" "all" "copies" = [emma, dune] := by
  have hs := fun k => (filteredBooks_sorted_compare L hL C searchTerm genreFilter k).chain'
  refine ⟨?_, ?_, ?_, ?_, filteredBooks_copies_scenario L hL⟩
  · refine (hs "title").imp ?_
    intro x y hxy
    simpa [compareBooks, strOr_empty] using hxy
  · refine (hs "author").imp ?_
    intro x y hxy
    simpa [compareBooks, strOr_empty] using hxy
  · refine (hs "year").imp ?_
    intro x y hxy
    simpa [compareBooks, numOr_zero] using hxy
  · refine (hs "copies").imp ?_
    intro x y hxy
    simpa [compareBooks, numOr_zero] using hxy

/-- Witness of C2 on the scenario collection, listed in the opposite order. -/
theorem filteredBooks_sorted_by_key_witness :
    (filteredBooks codePointText [emma, dune] "" "all" "title").Chain'
        (fun x y => codePointText.localeCompare (x.title.getD "") (y.title.getD "") ≤ 0) ∧
      (filteredBooks codePointText [emma, dune] "" "all" "author").Chain'
        (fun x y => codePointText.localeCompare (x.author.getD "") (y.author.getD "") ≤ 0) ∧
      (filteredBooks codePointText [emma, dune] "" "all" "year").Chain'
        (fun x y => x.publishedYear.getD 0 ≥ y.publishedYear.getD 0) ∧
      (filteredBooks codePointText [emma, dune] "" "all" "copies").Chain'
        (fun x y => x.quantity.getD 0 ≥ y.quantity.getD 0) ∧
      filteredBooks codePointText [dune, emma] "" "all" "copies" = [emma, dune] :=
  filteredBooks_sorted_by_key codePointText codePointText_consistent [emma, dune] "" "all"

theorem eq_of_perm_of_sorted_of_ties {α : Type} (r : α → α → Prop) {l₁ l₂ : List α}
    (hp : l₁.Perm l₂) (h₁ : l₁.Sorted r) (h₂ : l₂.Sorted r)
    (hties : ∀ a ∈ l₂, ∀ b ∈ l₂, r a b → r b a → a = b) : l₁ = l₂ := by
  haveI : IsAntisymm α (fun a b => r a b ∧ (r b a → a = b)) :=
    ⟨fun a b hab hba => hab.2 hba.1⟩
  have h₂' : l₂.Sorted (fun a b => r a b ∧ (r b a → a = b)) :=
    List.Pairwise.imp_of_mem (fun ha hb hab => ⟨hab, hties _ ha _ hb hab⟩) h₂
  have h₁' : l₁.Sorted (fun a b => r a b ∧ (r b a → a = b)) :=
    List.Pairwise.imp_of_mem
      (fun ha hb hab => ⟨hab, hties _ (hp.mem_iff.1 ha) _ (hp.mem_iff.1 hb) hab⟩) h₁
  exact List.eq_of_perm_of_sorted hp h₁' h₂'

theorem filteredBooks_perm_of_perm (L : JsText) {C C' : List Book} (hp : C'.Perm C)
    (searchTerm genreFilter sortKey : String) :
    (filteredBooks L C' searchTerm genreFilter sortKey).Perm
      (filteredBooks L C searchTerm genreFilter sortKey) := by
  unfold filteredBooks
  refine (arraySort_perm _ _).trans (List.Perm.trans ?_ (arraySort_perm _ _).symm)
  by_cases hterm : L.toLowerCase (trim searchTerm) = ""
  · by_cases hg : genreFilter = "all"
    · simpa [hterm, hg] using hp
    · simpa [hterm, hg] using hp.filter _
  · by_cases hg : genreFilter = "all"
    · simpa [hterm, hg] using hp.filter _
    · simpa [hterm, hg] using (hp.filter _).filter _

theorem arraySort_filter_ties {α : Type} (compareFn : α → α → Int)
    (hflip : ∀ a b, 0 < compareFn a b ↔ compareFn b a < 0)
    (htrans : ∀ a b c, compareFn a b ≤ 0 → compareFn b c ≤ 0 → compareFn a c ≤ 0)
    (xs : List α) (x : α) :
    (arraySort compareFn xs).filter (fun y => decide (compareFn x y = 0)) =
      xs.filter (fun y => decide (compareFn x y = 0)) := by
  have hmem : ∀ a ∈ xs.filter (fun y => decide (compareFn x y = 0)), compareFn x a = 0 := by
    intro a ha
    simpa using (List.mem_filter.1 ha).2
  have hpw : (xs.filter (fun y => decide (compareFn x y = 0))).Pairwise
      (fun a b => compareFn a b ≤ 0) := by
    have htriv : (xs.filter (fun y => decide (compareFn x y = 0))).Pairwise
        (fun _ _ => True) := List.pairwise_of_forall (fun _ _ => trivial)
    refine List.Pairwise.imp_of_mem ?_ htriv
    intro a b ha hb _
    have hxa := hmem a ha
    have hxb := hmem b hb
    have hax : compareFn a x ≤ 0 := by
      have := hflip a x
      by_contra hn
      have h1 := this.1 (not_le.1 hn)
      omega
    exact htrans a x b hax (le_of_eq hxb)
  have hsub : List.Sublist (xs.filter (fun y => decide (compareFn x y = 0)))
      (arraySort compareFn xs) :=
    List.sublist_insertionSort hpw (List.filter_sublist xs)
  have hsub' := hsub.filter (fun y => decide (compareFn x y = 0))
  rw [List.filter_filter] at hsub'
  simp only [Bool.and_self] at hsub'
  have hlen : (xs.filter (fun y => decide (compareFn x y = 0))).length =
      ((arraySort compareFn xs).filter (fun y => decide (compareFn x y = 0))).length :=
    (((arraySort_perm compareFn xs).filter _).length_eq).symm
  exact (hsub'.eq_of_length hlen).symm

/-- Claim C3, counterexample. With a consistent runtime, the collection
`[Dune(1), Arrival(1)]` and its permutation `[Arrival(1), Dune(1)]` give
different lists under the sort key `"copies"`: the two books tie and each list
keeps them in its input order. -/
theorem filteredBooks_depends_on_input_order :
    ¬ ∀ (L : JsText), L.Consistent → ∀ (C C' : List Book)
        (searchTerm genreFilter sortKey : String), C'.Perm C →
        filteredBooks L C' searchTerm genreFilter sortKey =
          filteredBooks L C searchTerm genreFilter sortKey := by
  intro h
  have h1 := h codePointText codePointText_consistent [dune, arrival] [arrival, dune]
    "" "all" "copies" (List.Perm.swap _ _ _)
  revert h1
  decide

/-- Claim C3, amended. For every collection `C`, every permutation `C'` of it
and every query, the list computed from `C'` is a permutation of the list
computed from `C`, and the two are equal as ordered sequences whenever no two
different books of the list tie under the comparator of the sort key. Books
that tie keep their input order: for every book `x`, the books of the list
that tie with `x` are the books of the collection that pass the filters and tie
with `x`, in the order of the collection. -/
theorem filteredBooks_input_order (L : JsText) (hL : L.Consistent) (C C' : List Book)
    (hp : C'.Perm C) (searchTerm genreFilter sortKey : String) :
    (filteredBooks L C' searchTerm genreFilter sortKey).Perm
        (filteredBooks L C searchTerm genreFilter sortKey) ∧
      ((∀ x ∈ filteredBooks L C searchTerm genreFilter sortKey,
          ∀ y ∈ filteredBooks L C searchTerm genreFilter sortKey,
            compareBooks L sortKey x y = 0 → x = y) →
        filteredBooks L C' searchTerm genreFilter sortKey =
          filteredBooks L C searchTerm genreFilter sortKey) ∧
      (∀ x, (filteredBooks L C searchTerm genreFilter sortKey).filter
          (fun y => decide (compareBooks L sortKey x y = 0)) =
        (C.filter (passesFilters L searchTerm genreFilter)).filter
          (fun y => decide (compareBooks L sortKey x y = 0))) ∧
      (∀ x, (filteredBooks L C' searchTerm genreFilter sortKey).filter
          (fun y => decide (compareBooks L sortKey x y = 0)) =
        (C'.filter (passesFilters L searchTerm genreFilter)).filter
          (fun y => decide (compareBooks L sortKey x y = 0))) := by
  have hperm := filteredBooks_perm_of_perm L hp searchTerm genreFilter sortKey
  have hties : ∀ (B : List Book) (x : Book),
      (filteredBooks L B searchTerm genreFilter sortKey).filter
          (fun y => decide (compareBooks L sortKey x y = 0)) =
        (B.filter (passesFilters L searchTerm genreFilter)).filter
          (fun y => decide (compareBooks L sortKey x y = 0)) := by
    intro B x
    rw [filteredBooks_eq_sort_filter L hL.lower_empty]
    exact arraySort_filter_ties _ (compareBooks_flip L hL sortKey)
      (compareBooks_trans L hL sortKey) _ x
  refine ⟨hperm, fun hne => ?_, hties C, hties C'⟩
  refine eq_of_perm_of_sorted_of_ties _ hperm
    (filteredBooks_sorted_compare L hL C' searchTerm genreFilter sortKey)
    (filteredBooks_sorted_compare L hL C searchTerm genreFilter sortKey) ?_
  intro a ha b hb hab hba
  apply hne a ha b hb
  have hflip := compareBooks_flip L hL sortKey b a
  have h0 : ¬ compareBooks L sortKey a b < 0 := fun hlt => by
    have := hflip.2 hlt
    omega
  omega

/-- Witness of the amended C3 on the scenario collection and its reversal, and
on the tie of `Dune` and `Arrival`, which the list keeps in input order. -/
theorem filteredBooks_input_order_witness :
    [emma, dune].Perm [dune, emma] ∧
      (∀ x ∈ filteredBooks codePointText [dune, emma] "" "all" "copies",
        ∀ y ∈ filteredBooks codePointText [dune, emma] "" "all" "copies",
          compareBooks codePointText "copies" x y = 0 → x = y) ∧
      filteredBooks codePointText [emma, dune] "" "all" "copies" =
        filteredBooks codePointText [dune, emma] "" "all" "copies" ∧
      (filteredBooks codePointText [arrival, emma, dune] "" "all" "copies").filter
          (fun y => decide (compareBooks codePointText "copies" dune y = 0)) =
        [arrival, dune] :=
  ⟨List.Perm.swap _ _ _, by decide,
    (filteredBooks_input_order codePointText codePointText_consistent [dune, emma]
      [emma, dune] (List.Perm.swap _ _ _) "" "all" "copies").2.1 (by decide),
    ((filteredBooks_input_order codePointText codePointText_consistent [arrival, emma, dune]
      [arrival, emma, dune] (List.Perm.refl _) "" "all" "copies").2.2.1 dune).trans
        (by decide)⟩

theorem roundNat_of_le (a : Nat) (h : a ≤ 2 ^ 53) : roundNat a = .int a := by
  rcases Nat.lt_or_ge a (2 ^ 53) with hlt | hge
  · unfold roundNat
    rw [if_pos hlt]
  · have ha : a = 2 ^ 53 := Nat.le_antisymm h hge
    subst ha
    decide

theorem roundInt_of_abs_le (n : Int) (h : |n| ≤ 2 ^ 53) : roundInt n = .int n := by
  have hn : n.natAbs ≤ 2 ^ 53 := by
    have := abs_le.1 h
    omega
  unfold roundInt
  rw [roundNat_of_le n.natAbs hn]
  by_cases hneg : n < 0
  · simp only [hneg, if_true, JsNumber.neg, JsNumber.int.injEq]
    omega
  · simp only [hneg, if_false, JsNumber.int.injEq]
    omega

theorem foldl_add_eq_sum (f : Book → Int) (books : List Book) (init : Int)
    (h : ∀ n ≤ books.length, |init + ((books.take n).map f).sum| ≤ 2 ^ 53) :
    books.foldl (fun (sum : JsNumber) book => sum.add (f book)) (JsNumber.int init) =
      JsNumber.int (init + (books.map f).sum) := by
  induction books generalizing init with
  | nil => simp
  | cons b bs ih =>
    have h1 := h 1 (by simp)
    simp only [List.take_succ_cons, List.take_zero, List.map_cons, List.map_nil,
      List.sum_cons, List.sum_nil, add_zero] at h1
    have hstep : (JsNumber.int init).add (f b) = JsNumber.int (init + f b) := by
      simp only [JsNumber.add, roundInt_of_abs_le _ h1]
    rw [List.foldl_cons, hstep, ih (init + f b)]
    · simp only [List.map_cons, List.sum_cons, JsNumber.int.injEq]
      omega
    · intro n hn
      have h2 := h (n + 1) (by simpa using hn)
      simp only [List.take_succ_cons, List.map_cons, List.sum_cons] at h2
      rw [add_assoc]
      exact h2

theorem totalCopies_eq_sum (books : List Book)
    (h : ∀ n ≤ books.length,
      |((books.take n).map (fun book => book.quantity.getD 0)).sum| ≤ 2 ^ 53) :
    totalCopies books = .int (books.map (fun book => book.quantity.getD 0)).sum := by
  unfold totalCopies
  have hsum := foldl_add_eq_sum (fun book => numOr book.quantity 0) books 0
    (by
      intro n hn
      simpa [numOr_zero] using h n hn)
  simpa [numOr_zero] using hsum

theorem setAdd_nodup (unique : List String) (g : String) (h : unique.Nodup) :
    (setAdd unique g).Nodup := by
  unfold setAdd
  split_ifs with hg
  · exact h
  · exact List.Nodup.append h (List.nodup_singleton g) (by simpa using hg)

theorem setAdd_toFinset (unique : List String) (g : String) :
    (setAdd unique g).toFinset = insert g unique.toFinset := by
  unfold setAdd
  split_ifs with hg
  · simp [hg]
  · ext x
    simp [or_comm]

theorem foldl_genres (books : List Book) (acc : List String) (hacc : acc.Nodup) :
    (books.foldl
        (fun unique book =>
          match book.genre with
          | some g => if g ≠ "" then setAdd unique g else unique
          | none => unique)
        acc).Nodup ∧
      (books.foldl
        (fun unique book =>
          match book.genre with
          | some g => if g ≠ "" then setAdd unique g else unique
          | none => unique)
        acc).toFinset = acc.toFinset ∪ (nonEmptyGenres books).toFinset := by
  induction books generalizing acc with
  | nil => simp [nonEmptyGenres, hacc]
  | cons b bs ih =>
    simp only [List.foldl_cons]
    cases hb : b.genre with
    | none =>
      have := ih acc hacc
      simpa [nonEmptyGenres, hb] using this
    | some g =>
      by_cases hg : g = ""
      · have := ih acc hacc
        simpa [nonEmptyGenres, hb, hg] using this
      · have := ih (setAdd acc g) (setAdd_nodup acc g hacc)
        refine ⟨by simpa [hg] using this.1, ?_⟩
        have h2 := this.2
        simp only [ne_eq, hg, not_false_eq_true, if_true]
        rw [h2, setAdd_toFinset]
        ext x
        simp [nonEmptyGenres, hb, hg, or_assoc]

theorem totalGenres_eq_card (L : JsText) (books : List Book) :
    totalGenres L books = (nonEmptyGenres books).toFinset.card := by
  unfold totalGenres genres
  rw [arraySort_length]
  have h := foldl_genres books [] List.nodup_nil
  unfold uniqueGenres
  rw [← List.toFinset_card_of_nodup h.1, h.2]
  simp

/-- Claim C4, counterexample. For the collection `[Atlas(2 ^ 53), Dune(1)]`
the total computed by the `reduce` is `2 ^ 53`, not the sum `2 ^ 53 + 1` of
the quantities: the addition of the reducer rounds to a double. -/
theorem totalCopies_rounds :
    ¬ ∀ C : List Book,
        totalCopies C = .int (C.map (fun book => book.quantity.getD 0)).sum := by
  intro h
  have h1 := h [warehouse, dune]
  revert h1
  decide

/-- Claim C4, amended. The statistics derived on a render depend on the
collection only: two renders of the same collection under any two queries give
the same totalTitles, totalCopies, totalGenres and lowStockCount. totalTitles
is the length of the collection, totalGenres the number of distinct non-empty
genre strings, lowStockCount the number of books whose quantity (missing as 0)
is at most 2, and totalCopies is the sum of the quantities (missing as 0)
whenever the sum of every initial part of the collection has magnitude at most
`2 ^ 53`. For `[Dune(SciFi, 1), Emma(Classic, 5)]` they are 6 copies, 2 genres
and 1 low-stock title. -/
theorem stats_of_collection (L : JsText) (st : AppState) (s₁ g₁ k₁ s₂ g₂ k₂ : String) :
    ((derive L { st with searchTerm := s₁, genreFilter := g₁, sortBy := k₁ }).totalTitles =
          (derive L { st with searchTerm := s₂, genreFilter := g₂, sortBy := k₂ }).totalTitles ∧
        (derive L { st with searchTerm := s₁, genreFilter := g₁, sortBy := k₁ }).totalCopies =
          (derive L { st with searchTerm := s₂, genreFilter := g₂, sortBy := k₂ }).totalCopies ∧
        (derive L { st with searchTerm := s₁, genreFilter := g₁, sortBy := k₁ }).totalGenres =
          (derive L { st with searchTerm := s₂, genreFilter := g₂, sortBy := k₂ }).totalGenres ∧
        (derive L { st with searchTerm := s₁, genreFilter := g₁, sortBy := k₁ }).lowStockCount =
          (derive L { st with searchTerm := s₂, genreFilter := g₂, sortBy := k₂ }).lowStockCount) ∧
      (derive L { st with searchTerm := s₁, genreFilter := g₁, sortBy := k₁ }).totalTitles =
        st.books.length ∧
      ((∀ n ≤ st.books.length,
          |((st.books.take n).map (fun book => book.quantity.getD 0)).sum| ≤ 2 ^ 53) →
        (derive L { st with searchTerm := s₁, genreFilter := g₁, sortBy := k₁ }).totalCopies =
          .int (st.books.map (fun book => book.quantity.getD 0)).sum) ∧
      (derive L { st with searchTerm := s₁, genreFilter := g₁, sortBy := k₁ }).totalGenres =
        (nonEmptyGenres st.books).toFinset.card ∧
      (derive L { st with searchTerm := s₁, genreFilter := g₁, sortBy := k₁ }).lowStockCount =
        st.books.countP (fun book => decide (book.quantity.getD 0 ≤ 2)) ∧
      totalCopies [dune, emma] = .int 6 ∧ totalGenres L [dune, emma] = 2 ∧
      lowStockCount [dune, emma] = 1 := by
  refine ⟨⟨rfl, rfl, rfl, rfl⟩, rfl, ?_, ?_, ?_, by decide, ?_, by decide⟩
  · intro h
    exact totalCopies_eq_sum st.books h
  · exact totalGenres_eq_card L st.books
  · simp [derive, lowStockCount, List.countP_eq_length_filter, numOr_zero]
  · rw [totalGenres_eq_card]
    decide

/-- Witness of the amended C4: on the scenario collection every initial sum is
within the bound and the total is the sum of the quantities. -/
theorem stats_of_collection_witness :
    (∀ n ≤ scenarioState.books.length,
        |((scenarioState.books.take n).map (fun book => book.quantity.getD 0)).sum| ≤
          2 ^ 53) ∧
      (derive codePointText
          { scenarioState with searchTerm := "aus", genreFilter := "all",
                               sortBy := "copies" }).totalCopies =
        .int (scenarioState.books.map (fun book => book.quantity.getD 0)).sum :=
  ⟨by decide,
    (stats_of_collection codePointText scenarioState "aus" "all" "copies" "" "all"
      "title").2.2.1 (by decide)⟩

/-- Claim C5. For every state whose draft has a title or an author that is
empty after trimming, and whatever the repository would answer, `handleSubmit`
ends with the validation message in `error`, issues no request, and leaves
the collection, the draft and the mode as they were. -/
theorem handleSubmit_invalid (st : AppState) (save list : FetchOutcome) (json : JsonOutcome)
    (h : trim st.form.title = "" ∨ trim st.form.author = "") :
    (handleSubmit st save list json).1.error = "Title and author are required." ∧
      (handleSubmit st save list json).2 = [] ∧
      (handleSubmit st save list json).1.books = st.books ∧
      (handleSubmit st save list json).1.form = st.form ∧
      (handleSubmit st save list json).1.isEditing = st.isEditing := by
  have hp : (buildPayload st.form).title = "" ∨ (buildPayload st.form).author = "" := h
  simp [handleSubmit, hp]

/-- Witness of C5: submitting the empty draft of the initial state. -/
theorem handleSubmit_invalid_witness :
    (trim initialState.form.title = "" ∨ trim initialState.form.author = "") ∧
      (handleSubmit initialState (.response true) (.response true) (.data [dune])).1.error =
        "Title and author are required." ∧
      (handleSubmit initialState (.response true) (.response true) (.data [dune])).2 = [] ∧
      (handleSubmit initialState (.response true) (.response true) (.data [dune])).1.books =
        initialState.books ∧
      (handleSubmit initialState (.response true) (.response true) (.data [dune])).1.form =
        initialState.form ∧
      (handleSubmit initialState (.response true) (.response true) (.data [dune])).1.isEditing =
        initialState.isEditing :=
  ⟨by decide,
    handleSubmit_invalid initialState (.response true) (.response true) (.data [dune])
      (by decide)⟩

/-- Claim C7. `loadBooks` ends with `loading` false whatever the repository
answers; when the response is ok and its JSON body is a list, the collection
is that list and `error` is empty; when `fetch` throws, the response is not ok,
or reading the body throws, the collection is unchanged and `error` is a
non-empty message. -/
theorem loadBooks_postcondition (st : AppState) :
    (∀ list json, (loadBooks st list json).1.loading = false) ∧
      (∀ data, (loadBooks st (.response true) (.data data)).1.books = data ∧
        (loadBooks st (.response true) (.data data)).1.error = "") ∧
      (∀ message json, (loadBooks st (.threw message) json).1.books = st.books ∧
        (loadBooks st (.threw message) json).1.error ≠ "") ∧
      (∀ json, (loadBooks st (.response false) json).1.books = st.books ∧
        (loadBooks st (.response false) json).1.error ≠ "") ∧
      (∀ message, (loadBooks st (.response true) (.threw message)).1.books = st.books ∧
        (loadBooks st (.response true) (.threw message)).1.error ≠ "") := by
  refine ⟨?_, ?_, ?_, ?_, ?_⟩
  · intro list json
    rfl
  · intro data
    exact ⟨rfl, rfl⟩
  · intro message json
    exact ⟨rfl, errorMessage_ne_empty message⟩
  · intro json
    exact ⟨rfl, errorMessage_ne_empty "Failed to load books."⟩
  · intro message
    exact ⟨rfl, errorMessage_ne_empty message⟩

theorem isWhiteSpace_of_isDigit (c : Char) (h : c.isDigit = true) : isWhiteSpace c = false := by
  have h1 : 48 ≤ c.toNat ∧ c.toNat ≤ 57 := by
    simp only [Char.isDigit, Bool.and_eq_true, decide_eq_true_eq] at h
    exact ⟨h.1, h.2⟩
  simp only [isWhiteSpace, Bool.or_eq_false_iff, Bool.and_eq_false_iff, decide_eq_false_iff_not,
    beq_eq_false_iff_ne, ne_eq]
  omega

theorem dropWhile_isWhiteSpace_digits (ds : List Char) (h : ds.all Char.isDigit = true) :
    ds.dropWhile isWhiteSpace = ds := by
  cases ds with
  | nil => rfl
  | cons c cs =>
    have hc : c.isDigit = true := by
      simp only [List.all_cons, Bool.and_eq_true] at h
      exact h.1
    simp [List.dropWhile, isWhiteSpace_of_isDigit c hc]

theorem trim_digits (s : String) (h : s.data.all Char.isDigit = true) : trim s = s := by
  unfold trim
  have hr : s.data.reverse.all Char.isDigit = true := by
    simpa using h
  rw [dropWhile_isWhiteSpace_digits _ h, dropWhile_isWhiteSpace_digits _ hr, List.reverse_reverse]

theorem nonDecimalLiteral_digits (ds : List Char) (h : ds.all Char.isDigit = true) :
    nonDecimalLiteral ds = none := by
  unfold nonDecimalLiteral
  split
  · rename_i c cs
    have hc : c.isDigit = true := by
      simp only [List.all_cons, Bool.and_eq_true] at h
      exact h.2.1
    have hx : c ≠ 'x' := fun hc' => absurd (hc' ▸ hc) (by decide)
    have hX : c ≠ 'X' := fun hc' => absurd (hc' ▸ hc) (by decide)
    have ho : c ≠ 'o' := fun hc' => absurd (hc' ▸ hc) (by decide)
    have hO : c ≠ 'O' := fun hc' => absurd (hc' ▸ hc) (by decide)
    have hb : c ≠ 'b' := fun hc' => absurd (hc' ▸ hc) (by decide)
    have hB : c ≠ 'B' := fun hc' => absurd (hc' ▸ hc) (by decide)
    simp [hx, hX, ho, hO, hb, hB]
  · rfl

theorem unsignedDecimalLiteral_digits (ds : List Char) (hne : ds ≠ [])
    (h : ds.all Char.isDigit = true) :
    unsignedDecimalLiteral ds = roundNat (digitsValue ds) := by
  have hinf : ds ≠ "Infinity".data := by
    intro heq
    rw [heq] at h
    exact absurd h (by decide)
  have hall : ∀ c ∈ ds, c.isDigit = true := by
    simpa using h
  have htake : ds.takeWhile Char.isDigit = ds := List.takeWhile_eq_self_iff.2 hall
  have hdrop : ds.dropWhile Char.isDigit = [] := List.dropWhile_eq_nil_iff.2 hall
  unfold unsignedDecimalLiteral
  simp [hinf, htake, hdrop, hne, exponentPart, roundDecimal]

theorem stringToNumber_digits (s : String) (hne : s.data ≠ [])
    (h : s.data.all Char.isDigit = true) :
    stringToNumber s = roundNat (digitsValue s.data) := by
  unfold stringToNumber
  rw [trim_digits s h]
  cases hd : s.data with
  | nil => exact absurd hd hne
  | cons c cs =>
    have hc : c.isDigit = true := by
      rw [hd] at h
      simp only [List.all_cons, Bool.and_eq_true] at h
      exact h.1
    have hminus : c ≠ '-' := by
      intro hc'
      rw [hc'] at hc
      exact absurd hc (by decide)
    have hplus : c ≠ '+' := by
      intro hc'
      rw [hc'] at hc
      exact absurd hc (by decide)
    rw [hd] at h
    split
    · rename_i heq
      exact absurd heq (by simp)
    · rename_i heq
      simp only [List.cons.injEq] at heq
      exact absurd heq.1 hminus
    · rename_i heq
      simp only [List.cons.injEq] at heq
      exact absurd heq.1 hplus
    · rw [nonDecimalLiteral_digits _ h]
      exact unsignedDecimalLiteral_digits _ (by simp) h

/-- Claim C6, counterexample. A draft that passes validation and whose
quantity text is `-5` makes `handleSubmit` send a payload whose quantity is
the negative integer -5, so the quantity sent is not always a non-negative
integer. -/
theorem handleSubmit_sends_negative_quantity :
    ¬ ∀ (st : AppState) (save list : FetchOutcome) (json : JsonOutcome),
        trim st.form.title ≠ "" → trim st.form.author ≠ "" →
        ∀ p, savedPayload (handleSubmit st save list json).2 = some p →
          ∃ n : Nat, p.quantity = .int n := by
  intro h
  obtain ⟨n, hn⟩ := h negativeQuantityState (.response true) (.response true) (.data [])
    (by decide) (by decide)
    { title := "Dune", author := "Herbert", isbn := "", publishedYear := none, genre := "",
      quantity := .int (-5) } (by decide)
  simp only [JsNumber.int.injEq] at hn
  omega

/-- Claim C6, amended. For every draft that passes validation, the save request
of `handleSubmit` carries the payload built from the draft, and the quantity of
that payload is 0 when the quantity text is empty, the non-negative integer
written by the text when the text is a run of decimal digits writing at most
`2 ^ 53` (the double nearest to the integer written for any run of digits),
the number itself when the field holds a number, and `Number(text)` as it is
for every non-empty text. -/
theorem handleSubmit_quantity (st : AppState) (save list : FetchOutcome) (json : JsonOutcome)
    (htitle : trim st.form.title ≠ "") (hauthor : trim st.form.author ≠ "") :
    savedPayload (handleSubmit st save list json).2 = some (buildPayload st.form) ∧
      (st.form.quantity = .text "" → (buildPayload st.form).quantity = .int 0) ∧
      (∀ s, st.form.quantity = .text s → s.data ≠ [] → s.data.all Char.isDigit = true →
        digitsValue s.data ≤ 2 ^ 53 →
        (buildPayload st.form).quantity = .int (digitsValue s.data)) ∧
      (∀ n, st.form.quantity = .number n → (buildPayload st.form).quantity = .int n) ∧
      (∀ s, st.form.quantity = .text s → s ≠ "" →
        (buildPayload st.form).quantity = stringToNumber s) ∧
      (∀ s, st.form.quantity = .text s → s.data ≠ [] → s.data.all Char.isDigit = true →
        (buildPayload st.form).quantity = roundNat (digitsValue s.data)) := by
  have hp : ¬ ((buildPayload st.form).title = "" ∨ (buildPayload st.form).author = "") := by
    intro h
    rcases h with h | h
    · exact htitle h
    · exact hauthor h
  have hdigits : ∀ s, st.form.quantity = .text s → s.data ≠ [] →
      s.data.all Char.isDigit = true →
      (buildPayload st.form).quantity = roundNat (digitsValue s.data) := by
    intro s hq hne hdig
    have hs : s ≠ "" := by
      intro h0
      apply hne
      rw [h0]
    simp [buildPayload, hq, FieldValue.truthy, hs, FieldValue.toNumber,
      stringToNumber_digits s hne hdig]
  refine ⟨?_, ?_, ?_, ?_, ?_, hdigits⟩
  · cases save with
    | threw message =>
      cases hE : st.isEditing <;> simp [handleSubmit, hp, hE, savedPayload, Request.body]
    | response ok =>
      cases ok <;> cases hE : st.isEditing <;>
        simp [handleSubmit, hp, hE, savedPayload, Request.body]
  · intro hq
    simp [buildPayload, hq, FieldValue.truthy]
  · intro s hq hne hdig hle
    rw [hdigits s hq hne hdig, roundNat_of_le _ hle]
  · intro n hq
    by_cases hn : n = 0
    · simp [buildPayload, hq, FieldValue.truthy, hn]
    · simp [buildPayload, hq, FieldValue.truthy, hn, FieldValue.toNumber]
  · intro s hq hs
    simp [buildPayload, hq, FieldValue.truthy, hs, FieldValue.toNumber]

/-- Witness of the amended C6: a draft with the quantity text `12` passes
validation, its save request carries the payload built from it, and the
quantity of that payload is the integer written by the text. -/
theorem handleSubmit_quantity_witness :
    trim digitQuantityState.form.title ≠ "" ∧ trim digitQuantityState.form.author ≠ "" ∧
      savedPayload (handleSubmit digitQuantityState (.response true) (.response true)
        (.data [])).2 = some (buildPayload digitQuantityState.form) ∧
      (buildPayload digitQuantityState.form).quantity = .int (digitsValue "12".data) :=
  ⟨by decide, by decide,
    (handleSubmit_quantity digitQuantityState (.response true) (.response true) (.data [])
      (by decide) (by decide)).1,
    (handleSubmit_quantity digitQuantityState (.response true) (.response true) (.data [])
      (by decide) (by decide)).2.2.1 "12" rfl (by decide) (by decide) (by decide)⟩

theorem loadBooks_session (st : AppState) (list : FetchOutcome) (json : JsonOutcome) :
    (loadBooks st list json).1.form = st.form ∧
      (loadBooks st list json).1.isEditing = st.isEditing := by
  cases list with
  | threw message => exact ⟨rfl, rfl⟩
  | response ok =>
    cases ok with
    | false => exact ⟨rfl, rfl⟩
    | true => cases json <;> exact ⟨rfl, rfl⟩

theorem loadBooks_books_of_error (st : AppState) (list : FetchOutcome) (json : JsonOutcome)
    (h : (loadBooks st list json).1.error ≠ "") : (loadBooks st list json).1.books = st.books := by
  cases list with
  | threw message => rfl
  | response ok =>
    cases ok with
    | false => rfl
    | true =>
      cases json with
      | threw message => rfl
      | data books => exact absurd rfl h

/-- Claim C8, counterexample. Editing `Dune`, a save request that succeeds
followed by a reload that fails ends with `error` set and with the session
reset to Create mode with the empty draft, so the session is not what it was
before the operation. -/
theorem handleSubmit_failed_reload_resets_session :
    ¬ ∀ (st : AppState) (save list : FetchOutcome) (json : JsonOutcome),
        (handleSubmit st save list json).1.error ≠ "" →
          (handleSubmit st save list json).1.books = st.books ∧
            (handleSubmit st save list json).1.form = st.form ∧
            (handleSubmit st save list json).1.isEditing = st.isEditing := by
  intro h
  have h1 := h editingDuneState (.response true) (.response false) (.data []) (by decide)
  revert h1
  decide

/-- Claim C8, amended. If a run of `loadBooks`, `handleDelete` or `handleSubmit`
ends with `error` set, the collection is what it was before the run. The draft
and the mode are unchanged too after `loadBooks` and `handleDelete`, and after
a `handleSubmit` whose draft fails validation or whose save request does not
succeed; when the save request succeeded and the reload failed, the session is
in Create mode with the empty draft. -/
theorem failure_keeps_collection (st : AppState) (id : Option Nat) (confirmed : Bool)
    (save remove list : FetchOutcome) (json : JsonOutcome) :
    ((loadBooks st list json).1.error ≠ "" →
        (loadBooks st list json).1.books = st.books ∧
          (loadBooks st list json).1.form = st.form ∧
          (loadBooks st list json).1.isEditing = st.isEditing) ∧
      ((handleDelete st id confirmed remove list json).1.error ≠ "" →
        (handleDelete st id confirmed remove list json).1.books = st.books ∧
          (handleDelete st id confirmed remove list json).1.form = st.form ∧
          (handleDelete st id confirmed remove list json).1.isEditing = st.isEditing) ∧
      ((handleSubmit st save list json).1.error ≠ "" →
        (handleSubmit st save list json).1.books = st.books ∧
          ((trim st.form.title = "" ∨ trim st.form.author = "" ∨ save ≠ .response true) →
            (handleSubmit st save list json).1.form = st.form ∧
              (handleSubmit st save list json).1.isEditing = st.isEditing) ∧
          (trim st.form.title ≠ "" → trim st.form.author ≠ "" → save = .response true →
            (handleSubmit st save list json).1.form = emptyForm ∧
              (handleSubmit st save list json).1.isEditing = false)) := by
  refine ⟨?_, ?_, ?_⟩
  · intro h
    exact ⟨loadBooks_books_of_error st list json h, loadBooks_session st list json⟩
  · cases confirmed with
    | false =>
      intro _
      exact ⟨rfl, rfl, rfl⟩
    | true =>
      cases remove with
      | threw message =>
        intro _
        exact ⟨rfl, rfl, rfl⟩
      | response ok =>
        cases ok with
        | false =>
          intro _
          exact ⟨rfl, rfl, rfl⟩
        | true =>
          intro h
          exact ⟨loadBooks_books_of_error st list json h, loadBooks_session st list json⟩
  · by_cases hp : (buildPayload st.form).title = "" ∨ (buildPayload st.form).author = ""
    · intro _
      have hp' : trim st.form.title = "" ∨ trim st.form.author = "" := hp
      refine ⟨by simp [handleSubmit, hp], fun _ => by simp [handleSubmit, hp], ?_⟩
      intro ht ha _
      rcases hp' with h | h
      · exact absurd h ht
      · exact absurd h ha
    · have hp' : ¬ (trim st.form.title = "" ∨ trim st.form.author = "") := hp
      cases save with
      | threw message =>
        intro _
        refine ⟨by simp [handleSubmit, hp], fun _ => by simp [handleSubmit, hp], ?_⟩
        intro _ _ hs
        exact absurd hs (by simp)
      | response ok =>
        cases ok with
        | false =>
          intro _
          refine ⟨by simp [handleSubmit, hp], fun _ => by simp [handleSubmit, hp], ?_⟩
          intro _ _ hs
          exact absurd hs (by simp)
        | true =>
          intro h
          have hrun : (handleSubmit st (.response true) list json).1 =
              handleReset (loadBooks { st with error := "" } list json).1 := by
            simp [handleSubmit, hp]
          rw [hrun] at h ⊢
          refine ⟨?_, ?_, ?_⟩
          · exact loadBooks_books_of_error { st with error := "" } list json h
          · intro hc
            rcases hc with hc | hc | hc
            · exact absurd (Or.inl hc) hp'
            · exact absurd (Or.inr hc) hp'
            · exact absurd rfl hc
          · intro _ _ _
            exact ⟨rfl, rfl⟩

/-- Witness of the amended C8: editing `Dune`, with a reload that the service
answers with a failure status, a delete request that throws and a save
request that is refused. -/
theorem failure_keeps_collection_witness :
    (loadBooks editingDuneState (.response false) (.data [])).1.error ≠ "" ∧
      (loadBooks editingDuneState (.response false) (.data [])).1.books =
        editingDuneState.books ∧
      (handleDelete editingDuneState (some 1) true (.threw "offline") (.response false)
        (.data [])).1.form = editingDuneState.form ∧
      (handleSubmit editingDuneState (.response false) (.response false) (.data [])).1.form =
        editingDuneState.form :=
  ⟨by decide,
    ((failure_keeps_collection editingDuneState (some 1) true (.response false)
      (.threw "offline") (.response false) (.data [])).1 (by decide)).1,
    ((failure_keeps_collection editingDuneState (some 1) true (.response false)
      (.threw "offline") (.response false) (.data [])).2.1 (by decide)).2.1,
    (((failure_keeps_collection editingDuneState (some 1) true (.response false)
      (.threw "offline") (.response false) (.data [])).2.2 (by decide)).2.1
        (Or.inr (Or.inr (by decide)))).1⟩

theorem handleEdit_form (st : AppState) (book : Book) :
    (handleEdit st book).form.id = book.id ∧
      (handleEdit st book).form.title = book.title.getD "" ∧
      (handleEdit st book).form.author = book.author.getD "" ∧
      (handleEdit st book).isEditing = true :=
  ⟨rfl, strOr_empty book.title, strOr_empty book.author, rfl⟩

/-- Claim C9. For every state and every book whose title and author are
non-empty after trimming, `handleEdit` followed by `handleSubmit` on the
unmodified draft issues as its save request a `PUT` against the book's id with
the payload built from the draft, and issues no `POST`; when the save request
succeeds, the run ends in Create mode with the draft equal to `emptyForm`. -/
theorem edit_then_submit (st : AppState) (book : Book) (save list : FetchOutcome)
    (json : JsonOutcome) (htitle : trim (book.title.getD "") ≠ "")
    (hauthor : trim (book.author.getD "") ≠ "") :
    (handleSubmit (handleEdit st book) save list json).2.head? =
        some (Request.put book.id (buildPayload (handleEdit st book).form)) ∧
      (∀ body, Request.post body ∉ (handleSubmit (handleEdit st book) save list json).2) ∧
      (handleSubmit (handleEdit st book) (.response true) list json).1.isEditing = false ∧
      (handleSubmit (handleEdit st book) (.response true) list json).1.form = emptyForm := by
  obtain ⟨hid, ht, ha, he⟩ := handleEdit_form st book
  have hp : ¬ ((buildPayload (handleEdit st book).form).title = "" ∨
      (buildPayload (handleEdit st book).form).author = "") := by
    intro h
    rcases h with h | h
    · apply htitle
      rw [← ht]
      exact h
    · apply hauthor
      rw [← ha]
      exact h
  have hrun : ∀ save', handleSubmit (handleEdit st book) save' list json =
      match save' with
      | .threw message =>
        ({ handleEdit st book with error := errorMessage message },
          [Request.put book.id (buildPayload (handleEdit st book).form)])
      | .response false =>
        ({ handleEdit st book with error := errorMessage "Unable to save the book." },
          [Request.put book.id (buildPayload (handleEdit st book).form)])
      | .response true =>
        (handleReset (loadBooks { handleEdit st book with error := "" } list json).1,
          Request.put book.id (buildPayload (handleEdit st book).form) ::
            (loadBooks { handleEdit st book with error := "" } list json).2) := by
    intro save'
    unfold handleSubmit
    simp only [hp, if_false, he, if_true, hid]
  refine ⟨?_, ?_, ?_, ?_⟩
  · rw [hrun]
    rcases save with _ | _ | _ <;> rfl
  · intro body
    rw [hrun]
    rcases save with _ | _ | _ <;> simp [loadBooks]
  · rw [hrun]
    rfl
  · rw [hrun]
    rfl

/-- Witness of C9: editing `Dune` from the initial state and submitting. -/
theorem edit_then_submit_witness :
    trim (dune.title.getD "") ≠ "" ∧ trim (dune.author.getD "") ≠ "" ∧
      (handleSubmit (handleEdit initialState dune) (.response true) (.response true)
        (.data [dune])).2.head? =
        some (Request.put dune.id (buildPayload (handleEdit initialState dune).form)) ∧
      (handleSubmit (handleEdit initialState dune) (.response true) (.response true)
        (.data [dune])).1.form = emptyForm :=
  ⟨by decide, by decide,
    (edit_then_submit initialState dune (.response true) (.response true) (.data [dune])
      (by decide) (by decide)).1,
    (edit_then_submit initialState dune (.response true) (.response true) (.data [dune])
      (by decide) (by decide)).2.2.2⟩

/-- Claim C10, counterexample. For a book without a quantity, `handleEdit`
seeds the quantity of the draft with the text `1`, not with the empty string. -/
theorem handleEdit_missing_quantity :
    ¬ ∀ (st : AppState) (book : Book), book.quantity = none →
        (handleEdit st book).form.quantity = .text "" := by
  intro h
  have h1 := h initialState duneWithoutQuantity rfl
  revert h1
  decide

/-- Claim C10, amended. For every state and every book, `handleEdit` puts the
session in Edit mode with the draft's id equal to the book's id, seeds title,
author, isbn and genre from the book with a missing field mapped to the empty
string, seeds publishedYear from the book with a missing year mapped to the
empty string, and seeds quantity from the book with a missing quantity mapped
to the text `1`. -/
theorem handleEdit_seeds_draft (st : AppState) (book : Book) :
    (handleEdit st book).isEditing = true ∧
      (handleEdit st book).form.id = book.id ∧
      (handleEdit st book).form.title = book.title.getD "" ∧
      (handleEdit st book).form.author = book.author.getD "" ∧
      (handleEdit st book).form.isbn = book.isbn.getD "" ∧
      (handleEdit st book).form.genre = book.genre.getD "" ∧
      (handleEdit st book).form.publishedYear =
        (match book.publishedYear with
          | some n => FieldValue.number n
          | none => FieldValue.text "") ∧
      (handleEdit st book).form.quantity =
        (match book.quantity with
          | some n => FieldValue.number n
          | none => FieldValue.text "1") :=
  ⟨rfl, rfl, strOr_empty book.title, strOr_empty book.author, strOr_empty book.isbn,
    strOr_empty book.genre, rfl, rfl⟩

theorem dropWhile_of_head (p : Char → Bool) (l : List Char)
    (h : l.head?.all (fun c => !p c) = true) : l.dropWhile p = l := by
  cases l with
  | nil => rfl
  | cons c cs =>
    have hc : p c = false := by simpa using h
    simp [List.dropWhile, hc]

theorem trim_of_noOuterWhiteSpace (s : String) (h : noOuterWhiteSpace s = true) :
    trim s = s := by
  unfold noOuterWhiteSpace at h
  rw [Bool.and_eq_true] at h
  unfold trim
  rw [dropWhile_of_head isWhiteSpace s.data h.1]
  have hr : s.data.reverse.head?.all (fun c => !isWhiteSpace c) = true := by
    rw [List.head?_reverse]
    exact h.2
  rw [dropWhile_of_head isWhiteSpace s.data.reverse hr, List.reverse_reverse]

theorem handleSubmit_savedPayload (st : AppState) (save list : FetchOutcome)
    (json : JsonOutcome) (htitle : trim st.form.title ≠ "") (hauthor : trim st.form.author ≠ "") :
    savedPayload (handleSubmit st save list json).2 = some (buildPayload st.form) := by
  have hp : ¬ ((buildPayload st.form).title = "" ∨ (buildPayload st.form).author = "") := by
    intro h
    rcases h with h | h
    · exact htitle h
    · exact hauthor h
  cases save with
  | threw message =>
    cases hE : st.isEditing <;> simp [handleSubmit, hp, hE, savedPayload, Request.body]
  | response ok =>
    cases ok <;> cases hE : st.isEditing <;>
      simp [handleSubmit, hp, hE, savedPayload, Request.body]

theorem buildPayload_handleEdit (st : AppState) (book : Book)
    (title author isbn genre : String) (quantity : Int)
    (ht : book.title = some title) (ha : book.author = some author)
    (hi : book.isbn = some isbn) (hg : book.genre = some genre)
    (hq : book.quantity = some quantity)
    (hwt : noOuterWhiteSpace title = true) (hwa : noOuterWhiteSpace author = true)
    (hwi : noOuterWhiteSpace isbn = true) (hwg : noOuterWhiteSpace genre = true)
    (hy : book.publishedYear ≠ some 0) :
    buildPayload (handleEdit st book).form =
      { title := title, author := author, isbn := isbn,
        publishedYear := book.publishedYear.map JsNumber.int, genre := genre,
        quantity := JsNumber.int quantity } := by
  cases hyear : book.publishedYear with
  | none =>
    by_cases h0 : quantity = 0
    · simp [buildPayload, handleEdit, ht, ha, hi, hg, hq, hyear, strOr_empty,
        trim_of_noOuterWhiteSpace, hwt, hwa, hwi, hwg, FieldValue.truthy, h0]
    · simp [buildPayload, handleEdit, ht, ha, hi, hg, hq, hyear, strOr_empty,
        trim_of_noOuterWhiteSpace, hwt, hwa, hwi, hwg, FieldValue.truthy,
        FieldValue.toNumber, h0]
  | some y =>
    have hy0 : y ≠ 0 := by
      intro h0
      apply hy
      rw [hyear, h0]
    by_cases h0 : quantity = 0
    · simp [buildPayload, handleEdit, ht, ha, hi, hg, hq, hyear, strOr_empty,
        trim_of_noOuterWhiteSpace, hwt, hwa, hwi, hwg, FieldValue.truthy,
        FieldValue.toNumber, hy0, h0]
    · simp [buildPayload, handleEdit, ht, ha, hi, hg, hq, hyear, strOr_empty,
        trim_of_noOuterWhiteSpace, hwt, hwa, hwi, hwg, FieldValue.truthy,
        FieldValue.toNumber, hy0, h0]

/-- Claim C11. For every state and every book whose title, author, isbn and
genre are present without leading or trailing white space, with title and
author non-empty, whose publishedYear is absent or a non-zero integer and whose
quantity is a present integer, the payload that `handleSubmit` sends after
`handleEdit` on the unmodified draft has the book's title, author, isbn,
publishedYear, genre and quantity. -/
theorem edit_round_trip (st : AppState) (book : Book) (save list : FetchOutcome)
    (json : JsonOutcome) (title author isbn genre : String) (quantity : Int)
    (ht : book.title = some title) (ha : book.author = some author)
    (hi : book.isbn = some isbn) (hg : book.genre = some genre)
    (hq : book.quantity = some quantity)
    (htne : title ≠ "") (hane : author ≠ "")
    (hwt : noOuterWhiteSpace title = true) (hwa : noOuterWhiteSpace author = true)
    (hwi : noOuterWhiteSpace isbn = true) (hwg : noOuterWhiteSpace genre = true)
    (hy : book.publishedYear ≠ some 0) :
    savedPayload (handleSubmit (handleEdit st book) save list json).2 =
        some (buildPayload (handleEdit st book).form) ∧
      some (buildPayload (handleEdit st book).form).title = book.title ∧
      some (buildPayload (handleEdit st book).form).author = book.author ∧
      some (buildPayload (handleEdit st book).form).isbn = book.isbn ∧
      (buildPayload (handleEdit st book).form).publishedYear =
        book.publishedYear.map JsNumber.int ∧
      some (buildPayload (handleEdit st book).form).genre = book.genre ∧
      some (buildPayload (handleEdit st book).form).quantity =
        book.quantity.map JsNumber.int := by
  have hpay := buildPayload_handleEdit st book title author isbn genre quantity ht ha hi hg hq
    hwt hwa hwi hwg hy
  have hft : (handleEdit st book).form.title = title := by
    simp [handleEdit, ht, strOr_empty]
  have hfa : (handleEdit st book).form.author = author := by
    simp [handleEdit, ha, strOr_empty]
  refine ⟨?_, ?_, ?_, ?_, ?_, ?_, ?_⟩
  · apply handleSubmit_savedPayload
    · rw [hft, trim_of_noOuterWhiteSpace title hwt]
      exact htne
    · rw [hfa, trim_of_noOuterWhiteSpace author hwa]
      exact hane
  · rw [hpay, ht]
  · rw [hpay, ha]
  · rw [hpay, hi]
  · rw [hpay]
  · rw [hpay, hg]
  · rw [hpay, hq]
    rfl

/-- Witness of C11: editing the complete record of `Dune` and submitting. -/
theorem edit_round_trip_witness :
    savedPayload (handleSubmit (handleEdit initialState duneComplete) (.response true)
        (.response true) (.data [duneComplete])).2 =
        some (buildPayload (handleEdit initialState duneComplete).form) ∧
      some (buildPayload (handleEdit initialState duneComplete).form).title =
        duneComplete.title ∧
      some (buildPayload (handleEdit initialState duneComplete).form).author =
        duneComplete.author ∧
      some (buildPayload (handleEdit initialState duneComplete).form).isbn =
        duneComplete.isbn ∧
      (buildPayload (handleEdit initialState duneComplete).form).publishedYear =
        duneComplete.publishedYear.map JsNumber.int ∧
      some (buildPayload (handleEdit initialState duneComplete).form).genre =
        duneComplete.genre ∧
      some (buildPayload (handleEdit initialState duneComplete).form).quantity =
        duneComplete.quantity.map JsNumber.int :=
  edit_round_trip initialState duneComplete (.response true) (.response true)
    (.data [duneComplete]) "Dune" "Frank Herbert" "978-0441013593" "SciFi" 1 rfl rfl rfl rfl rfl
    (by decide) (by decide) (by decide) (by decide) (by decide) (by decide) (by decide)

end BookInventory
